import Mathlib

/-!
Verification development for the stdio agent scripts of this repository
(basic_agent.py, summarizer_agent.py, language_summarizer.py,
quiz_generator_agent.py, interview_agent.py).

The Python code is shallowly embedded: strings are Lean `String`s (processed
as `List Char`), the regex substitutions of the scripts are embedded as
executable character-list scanners that implement the exact semantics of the
concrete patterns appearing in the source (leftmost match, greedy or lazy
repetition as written, `re.MULTILINE` anchors where used), and calls into
external libraries (the aixplain agent, `json.loads`, the clock) are
parameters of the embedded functions.
-/

namespace AgentRepo

/-! ### Character constants (written via code points to keep literals simple) -/

/-- Single quote character (code 39), used by the `output='...'` patterns. -/
def sq : Char := Char.ofNat 39

/-- Backslash character (code 92), used by the literal escape sequences. -/
def bsC : Char := Char.ofNat 92

/-- Newline character. -/
def nl : Char := Char.ofNat 10

/-- Tab character. -/
def tabC : Char := Char.ofNat 9

/-- Space character. -/
def spC : Char := Char.ofNat 32

/-- Bullet character U+2022 used by the bullet-unification rule. -/
def bulletC : Char := Char.ofNat 8226

/-- Single quote as a one-character string. -/
def sqS : String := String.singleton sq

/-- Backslash as a one-character string. -/
def bsS : String := String.singleton bsC

/-! ### List-of-characters utilities shared by the embedded scanners -/

/-- Boolean prefix test on character lists. -/
def hasPrefixL : List Char → List Char → Bool
  | [], _ => true
  | _ :: _, [] => false
  | p :: ps, c :: cs => p == c && hasPrefixL ps cs

/-- Boolean substring test on character lists (Python `in` / `str.find` success). -/
def hasSubL (pat : List Char) : List Char → Bool
  | [] => hasPrefixL pat []
  | c :: cs => hasPrefixL pat (c :: cs) || hasSubL pat cs

/-- ASCII lower-casing of one character (model of `str.lower` for the ASCII
keywords the router scans for). -/
def lowerC (c : Char) : Char :=
  if 65 ≤ c.toNat ∧ c.toNat ≤ 90 then Char.ofNat (c.toNat + 32) else c

/-- Lower-case a character list. -/
def lowerL (l : List Char) : List Char := l.map lowerC

/-- Python `str.strip("'")`: drop every leading and trailing single quote. -/
def stripQuotes (l : List Char) : List Char :=
  ((l.dropWhile (· == sq)).reverse.dropWhile (· == sq)).reverse

/-- Boolean suffix test for strings, used to state the sentinel claims. -/
def endsWithS (s pat : String) : Bool :=
  hasPrefixL pat.data.reverse s.data.reverse

/-- Replace every non-overlapping occurrence of the two-character sequence
`a b` by the single character `r`, scanning left to right: the semantics of
Python `str.replace` for a two-character pattern. -/
def replace2 (a b r : Char) : List Char → List Char
  | [] => []
  | [c] => [c]
  | c :: d :: cs =>
    if c == a && d == b then r :: replace2 a b r cs
    else c :: replace2 a b r (d :: cs)

/-- Model of `content.replace('\\n', '\n').replace('\\t', '\t')`: the escape
unescaping applied by `extract_content` (basic_agent.py:132) and again by the
text branch (basic_agent.py:297). -/
def unescapeL (l : List Char) : List Char :=
  replace2 bsC 't' tabC (replace2 bsC 'n' nl l)

/-! ### Response Extractor (`extract_content`, summarizer_agent.py:68-105,
identical to basic_agent.py:100-137) -/

/-- Literal `output=` of the tier-4/5 patterns. -/
def eqLit : List Char := 'o' :: 'u' :: 't' :: 'p' :: 'u' :: 't' :: '=' :: []

/-- Literal `output='` of the tier-3 pattern. -/
def quotedLit : List Char := eqLit ++ [sq]

/-- Tier 3: `re.search(r"output='([^']+)'", s)`. At each start position,
leftmost first: after the literal `output='`, the greedy `[^']+` takes the
maximal run of non-quote characters; the run must be non-empty and followed
by a closing quote, otherwise the engine moves one position right. -/
def findQuotedOutput : List Char → Option (List Char)
  | [] => none
  | c :: cs =>
    if hasPrefixL quotedLit (c :: cs) then
      let rest := (c :: cs).drop quotedLit.length
      let g := rest.takeWhile (· != sq)
      if g.isEmpty then findQuotedOutput cs
      else if (rest.drop g.length).head? == some sq then some g
      else findQuotedOutput cs
    else findQuotedOutput cs

/-- Tier 4: `re.search(r"output=([^,]+),", s)`: after the literal `output=`,
the greedy `[^,]+` takes the maximal run of non-comma characters, which must
be non-empty and followed by a comma. -/
def findCommaOutput : List Char → Option (List Char)
  | [] => none
  | c :: cs =>
    if hasPrefixL eqLit (c :: cs) then
      let rest := (c :: cs).drop eqLit.length
      let g := rest.takeWhile (· != ',')
      if g.isEmpty then findCommaOutput cs
      else if (rest.drop g.length).head? == some ',' then some g
      else findCommaOutput cs
    else findCommaOutput cs

/-- Tier 5: `response_str.find("output=")`; returns the remainder after the
first occurrence of the literal, `none` when the literal is absent. -/
def findOutputEq : List Char → Option (List Char)
  | [] => none
  | c :: cs =>
    if hasPrefixL eqLit (c :: cs) then some ((c :: cs).drop eqLit.length)
    else findOutputEq cs

/-- Tiers 3-6 of `extract_content`, operating on the string form of the
response. Tier 5 takes everything up to the next comma (`find(",", start)`),
or to the end when there is none, then strips quotes; tier 6 is the string
form itself. -/
def strTiers (s : List Char) : List Char :=
  match findQuotedOutput s with
  | some g => g
  | none =>
    match findCommaOutput s with
    | some g => stripQuotes g
    | none =>
      match findOutputEq s with
      | some rest => stripQuotes (rest.takeWhile (· != ','))
      | none => s

/-- Opaque `RawResponse` value handed to `extract_content`, as a tagged union
of the dynamic shapes the scripts probe for: an object with an `output`
attribute, an object with a nested `data.output` attribute, a plain dict
(which has neither attribute in Python), or an opaque value known only by its
`str` form. The `shown` field of the object shapes is the value of
`str(response)`, computed but unused on those paths. -/
inductive RawResponse where
  | attr (output : String) (shown : String)
  | nested (output : String) (shown : String)
  | dict (pairs : List (String × String))
  | raw (s : String)

/-- Python `str` of a dict of strings: `{'k': 'v', ...}` with single-quoted
entries joined by comma-space. -/
def pyDictRepr (pairs : List (String × String)) : String :=
  "\x7b" ++
    String.intercalate ", "
      (pairs.map (fun kv => sqS ++ kv.1 ++ sqS ++ ": " ++ sqS ++ kv.2 ++ sqS)) ++
  "\x7d"

/-- The `str` form of a `RawResponse`. -/
def strForm : RawResponse → String
  | .attr _ sh => sh
  | .nested _ sh => sh
  | .dict ps => pyDictRepr ps
  | .raw s => s

/-- Embedding of `extract_content` (summarizer_agent.py:68-105 and
basic_agent.py:100-137): tier 1 `response.output`, tier 2
`response.data.output`, then the three string-form tiers, and finally the
escape unescaping applied to whatever was selected. -/
def extract_content (r : RawResponse) : String :=
  match r with
  | .attr o _ => String.mk (unescapeL o.data)
  | .nested o _ => String.mk (unescapeL o.data)
  | .dict ps => String.mk (unescapeL (strTiers (pyDictRepr ps).data))
  | .raw s => String.mk (unescapeL (strTiers s.data))

/-- Embedding of the shorter `extract_content` of language_summarizer.py:53-69,
which only has tiers 1, 2, 3 and the full-string fallback. -/
def extract_content_ls (r : RawResponse) : String :=
  match r with
  | .attr o _ => String.mk (unescapeL o.data)
  | .nested o _ => String.mk (unescapeL o.data)
  | .dict ps =>
    String.mk (unescapeL
      (match findQuotedOutput (pyDictRepr ps).data with
       | some g => g
       | none => (pyDictRepr ps).data))
  | .raw s =>
    String.mk (unescapeL
      (match findQuotedOutput s.data with
       | some g => g
       | none => s.data))

/-! ### Content Normalizer (text branch of basic_agent.py:297-310)

The six statements of the text branch, in source order:
line 297 unescape, line 300 `re.sub(r'Processing request.*?\.\.\.', '', _)`,
line 301 `re.sub(r'This is a dummy response.*?\.', '', _)`,
line 304 `re.sub(r'^[-*•]\s+', '• ', _, flags=re.MULTILINE)`,
line 307 `re.sub(r'\*\*(.*?)\*\*', r'<strong>\1</strong>', _)`,
line 310 `re.sub(r'\n{3,}', '\n\n', _)`.
Each substitution scanner is written with an explicit fuel argument (the
length of its input) so that every definition is structurally recursive and
kernel-evaluable; fuel never runs out because every recursive call consumes
at least one character. -/

/-- Literal `Processing request` of the first artifact pattern. -/
def artifactLit : List Char := "Processing request".data

/-- Literal `This is a dummy response` of the second artifact pattern. -/
def dummyLit : List Char := "This is a dummy response".data

/-- Terminator `...` (three literal dots) of the first artifact pattern. -/
def dots3 : List Char := ['.', '.', '.']

/-- Terminator `.` of the second artifact pattern. -/
def dot1 : List Char := ['.']

/-- Lazy `.*?` followed by the literal `stop`: starting from the current
position, try the terminator first, else consume one character (which must
not be a newline, since `.` does not match `\n`) and retry. Returns the
remainder after the terminator, or `none` when no match exists. -/
def findStop (stop : List Char) : List Char → Option (List Char)
  | [] => if hasPrefixL stop [] then some [] else none
  | c :: cs =>
    if hasPrefixL stop (c :: cs) then some ((c :: cs).drop stop.length)
    else if c == nl then none
    else findStop stop cs

/-- `re.sub(lit ++ lazy-dot-star ++ stop, '', s)`: at each position, if the
literal matches and a lazy terminator is found, delete the whole match and
continue scanning after it; otherwise copy one character. -/
def removeLazyF (lit stop : List Char) : Nat → List Char → List Char
  | 0, l => l
  | _ + 1, [] => []
  | n + 1, c :: cs =>
    if hasPrefixL lit (c :: cs) then
      match findStop stop ((c :: cs).drop lit.length) with
      | some rest => removeLazyF lit stop n rest
      | none => c :: removeLazyF lit stop n cs
    else c :: removeLazyF lit stop n cs

/-- Python `\s` on the ASCII range: the whitespace class of the bullet rule. -/
def isPyWs (c : Char) : Bool :=
  c == spC || c == tabC || c == nl || c == Char.ofNat 13 ||
  c == Char.ofNat 12 || c == Char.ofNat 11

/-- Bullet markers `[-*•]` of the unification rule. -/
def isMarker (c : Char) : Bool := c == '-' || c == '*' || c == bulletC

/-- True when the last character of the list is a newline: determines whether
the position right after a consumed `\s+` run is a `re.MULTILINE` line start. -/
def lastIsNl (l : List Char) : Bool :=
  match l.getLast? with
  | some c => c == nl
  | none => false

/-- `re.sub(r'^[-*•]\s+', '• ', s, flags=re.MULTILINE)`: at a line start, a
marker followed by a non-empty maximal whitespace run (greedy `\s+`, which may
cross newlines) is rewritten to the two characters bullet-space, and scanning
resumes after the consumed run; anywhere else characters are copied, tracking
whether the next position starts a line. -/
def bulletSubF : Nat → Bool → List Char → List Char
  | 0, _, l => l
  | _ + 1, _, [] => []
  | n + 1, ls, c :: cs =>
    if ls && isMarker c && !(cs.takeWhile isPyWs).isEmpty then
      bulletC :: spC ::
        bulletSubF n (lastIsNl (cs.takeWhile isPyWs)) (cs.dropWhile isPyWs)
    else c :: bulletSubF n (c == nl) cs

/-- Opening `**` literal of the bold pattern. -/
def star2 : List Char := ['*', '*']

/-- Replacement prefix of the bold rule. -/
def strongOpenL : List Char := "<strong>".data

/-- Replacement suffix of the bold rule. -/
def strongCloseL : List Char := "</strong>".data

/-- Lazy `(.*?)` followed by the closing `**`: returns the captured group and
the remainder after the closing stars; the group may not contain a newline
(`.`) and stops at the first closing `**`. -/
def findClose : List Char → Option (List Char × List Char)
  | [] => none
  | c :: cs =>
    if hasPrefixL star2 (c :: cs) then some ([], cs.drop 1)
    else if c == nl then none
    else
      match findClose cs with
      | some (g, r) => some (c :: g, r)
      | none => none

/-- `re.sub(r'\*\*(.*?)\*\*', r'<strong>\1</strong>', s)`. -/
def boldSubF : Nat → List Char → List Char
  | 0, l => l
  | _ + 1, [] => []
  | n + 1, c :: cs =>
    if hasPrefixL star2 (c :: cs) then
      match findClose (cs.drop 1) with
      | some (g, r) => strongOpenL ++ g ++ strongCloseL ++ boldSubF n r
      | none => c :: boldSubF n cs
    else c :: boldSubF n cs

/-- `re.sub(r'\n{3,}', '\n\n', s)`: every maximal run of at least three
newlines is replaced by exactly two. -/
def collapseF : Nat → List Char → List Char
  | 0, l => l
  | _ + 1, [] => []
  | n + 1, c :: cs =>
    if c == nl then
      (if 3 ≤ 1 + (cs.takeWhile (· == nl)).length then [nl, nl]
       else List.replicate (1 + (cs.takeWhile (· == nl)).length) nl) ++
        collapseF n (cs.dropWhile (· == nl))
    else c :: collapseF n cs

/-- The full text-branch normalization sequence of basic_agent.py:297-310. -/
def normalizeText (s : String) : String :=
  let l1 := unescapeL s.data
  let l2 := removeLazyF artifactLit dots3 l1.length l1
  let l3 := removeLazyF dummyLit dot1 l2.length l2
  let l4 := bulletSubF l3.length true l3
  let l5 := boldSubF l4.length l4
  String.mk (collapseF l5.length l5)

/-! ### The stdin request loop of basic_agent.py:194-347

External effects are parameters: the JSON parse outcome of the line, the
outcome of each `agent.run` call, whether the first `print` raises
`UnicodeEncodeError`, the lossy re-encoding function, and the timestamp. -/

/-- Parsed request fields (basic_agent.py:198-202), with the `request.get`
defaults already applied. -/
structure Request where
  prompt : String
  requestId : String
  language : String
  isVoiceInput : Bool
  audioData : Option String

/-- Outcome of a call to the external `agent.run`. -/
inductive AgentOutcome where
  | ok (resp : RawResponse)
  | raises (msg : String)

/-- Python truthiness of the `audioData` field (absent or empty is falsy). -/
def audioTruthy : Option String → Bool
  | none => false
  | some s => !(s == "")

/-- One line of loop input: the parse outcome of the line (with the error
text when `json.loads` raises), the outcomes of the two possible agent calls,
whether the response `print` raises `UnicodeEncodeError`, and the timestamp
recorded in the history turn. -/
structure LineInput where
  parsed : Option Request
  parseErr : String
  transcribeOutcome : AgentOutcome
  generateOutcome : AgentOutcome
  encodeFails : Bool
  ts : String

/-- One conversation turn (basic_agent.py:317-323). -/
structure Turn where
  user : String
  assistant : String
  timestamp : String
  requestId : String
  language : String

/-- Which control path the iteration took. -/
inductive BranchTag where
  | badLine
  | emptyInput
  | voiceFail
  | image
  | text
deriving DecidableEq

/-- Result of one loop iteration: the new history, the single response unit
written to stdout, whether the periodic checkpoint fired, the query strings
passed to the transcription and generation `agent.run` calls (when made), the
final value of the mutable `prompt` variable, and the path taken. -/
structure StepResult where
  history : List Turn
  output : String
  savedNow : Bool
  transQuery : Option String
  genQuery : Option String
  promptUsed : String
  tag : BranchTag

/-- The sentinel appended to every response unit. -/
def sentinel : String := "RESPONSE_COMPLETE"

/-- Fixed marker prefixed to a transcribed prompt (basic_agent.py:233). -/
def voiceMarker : String := "[Transcribed from voice] "

/-- Image-intent keywords scanned for over the lowercased prompt
(basic_agent.py:244-245). -/
def imageKeywords : List String :=
  ["image", "picture", "photo", "generate", "create", "draw"]

/-- The keyword scan `any(keyword in prompt.lower() for keyword in ...)`. -/
def isImageRequest (prompt : String) : Bool :=
  imageKeywords.any (fun k => hasSubL k.data (lowerL prompt.data))

/-- The image-branch prompt template (basic_agent.py:249-255). -/
def imageTemplate (prompt : String) : String :=
  "\n                Generate an image based on this description: " ++ prompt ++
  "\n                \n                When returning the image, please format your response as follows:\n                1. A brief description of what was generated\n                2. The image URL clearly marked with [IMAGE_URL: <a href=\"URL_HERE\">Image Link</a>]\n                "

/-- The text-branch prompt template (basic_agent.py:276-285). -/
def textTemplate (prompt language : String) : String :=
  "\n                Please respond to the following prompt with well-formatted content.\n                Format your response with:\n                - Use proper HTML formatting: <strong>for bold text</strong> instead of **text**\n                - Use bullet points with • symbol\n                - Proper paragraph spacing\n                - If the response should be in " ++
  language ++ ", please ensure the entire response is in " ++ language ++
  "\n                \n                Here is the prompt: " ++ prompt ++ "\n                "

/-- Error content when the generation call raises (basic_agent.py:314);
spelled with `sqS` because of the apostrophe of the source text. -/
def agentErrContent (msg : String) : String :=
  "I" ++ sqS ++ "m sorry, I encountered an error processing your request: " ++ msg

/-- One iteration of the stdin loop (basic_agent.py:194-344). `lossy` models
`content.encode('utf-8', errors='replace').decode('utf-8', errors='replace')`.
The branch-local `print` at line 259 is console logging, not a response unit,
and is not modelled. -/
def stepLoop (lossy : String → String) (hist : List Turn) (inp : LineInput) :
    StepResult :=
  match inp.parsed with
  | none =>
    { history := hist
      output := "An error occurred: Error processing request: " ++ inp.parseErr ++ sentinel
      savedNow := false, transQuery := none, genQuery := none
      promptUsed := "", tag := .badLine }
  | some r =>
    if r.prompt == "" && !audioTruthy r.audioData then
      { history := hist
        output := "Error: Empty prompt and no audio data received" ++ sentinel
        savedNow := false, transQuery := none, genQuery := none
        promptUsed := r.prompt, tag := .emptyInput }
    else
      -- voice handling, basic_agent.py:215-241
      let voice := r.isVoiceInput && audioTruthy r.audioData
      let voiceErr : Option String :=
        if voice then
          match inp.transcribeOutcome with
          | .ok _ => none
          | .raises m => if r.prompt == "" then some m else none
        else none
      match voiceErr with
      | some m =>
        { history := hist
          output := "Error processing voice input: " ++ m ++ sentinel
          savedNow := false
          transQuery := some (r.audioData.getD "")
          genQuery := none, promptUsed := r.prompt, tag := .voiceFail }
      | none =>
        let prompt1 :=
          if voice then
            match inp.transcribeOutcome with
            | .ok resp =>
              let t := extract_content resp
              voiceMarker ++ (if t == "" then r.prompt else t)
            | .raises _ => r.prompt
          else r.prompt
        let isImg := isImageRequest prompt1
        let query :=
          if isImg then imageTemplate prompt1 else textTemplate prompt1 r.language
        let content :=
          match inp.generateOutcome with
          | .ok resp =>
            if isImg then extract_content resp
            else normalizeText (extract_content resp)
          | .raises m => agentErrContent m
        let hist' := hist ++ [⟨prompt1, content, inp.ts, r.requestId, r.language⟩]
        { history := hist'
          output := (if inp.encodeFails then lossy content else content) ++ sentinel
          savedNow := hist'.length % 3 == 0
          transQuery := if voice then some (r.audioData.getD "") else none
          genQuery := some query
          promptUsed := prompt1
          tag := if isImg then .image else .text }

/-- Observable events of a whole loop run. -/
inductive LoopEvent where
  | response (s : String)
  | checkpoint (h : List Turn)
  | finalSave (h : List Turn)

/-- The history after processing a list of input lines. -/
def runHist (lossy : String → String) (hist : List Turn) :
    List LineInput → List Turn
  | [] => hist
  | inp :: rest => runHist lossy (stepLoop lossy hist inp).history rest

/-- The event trace of a whole run of the stdin loop: per iteration the
conditional checkpoint (basic_agent.py:325-327) precedes the response print
(basic_agent.py:329-338); after end of input the unconditional final save
(basic_agent.py:346-347) closes the trace. -/
def runLoop (lossy : String → String) (hist : List Turn) :
    List LineInput → List LoopEvent
  | [] => [.finalSave hist]
  | inp :: rest =>
    let res := stepLoop lossy hist inp
    (if res.savedNow then [LoopEvent.checkpoint res.history] else []) ++
      (LoopEvent.response res.output :: runLoop lossy res.history rest)

/-! ### JSON values and the default `json.dumps` rendering -/

/-- JSON values, used for the payloads the scripts build and parse. -/
inductive Json where
  | null
  | bool (b : Bool)
  | num (n : Int)
  | str (s : String)
  | arr (items : List Json)
  | obj (fields : List (String × Json))

/-- Escaping of one character inside a JSON string literal, as `json.dumps`
renders the characters occurring in this development (quote, backslash,
newline, tab; other ASCII characters are passed through). -/
def escJChar (c : Char) : List Char :=
  if c == Char.ofNat 34 then [bsC, Char.ofNat 34]
  else if c == bsC then [bsC, bsC]
  else if c == nl then [bsC, 'n']
  else if c == tabC then [bsC, 't']
  else [c]

/-- A JSON string literal as `json.dumps` prints it. -/
def jStrLit (s : String) : String :=
  String.mk (Char.ofNat 34 :: (s.data.flatMap escJChar ++ [Char.ofNat 34]))

/-- Comma-space joining of rendered members (the `json.dumps` default). -/
def joinCS (parts : List String) : String := String.intercalate ", " parts

/-- Fuel-indexed `json.dumps` with the default separators; the fuel bounds
the nesting depth and is never exhausted for the finite values built here. -/
def dumpJsonF : Nat → Json → String
  | 0, _ => ""
  | _ + 1, .null => "null"
  | _ + 1, .bool b => if b then "true" else "false"
  | _ + 1, .num n => toString n
  | _ + 1, .str s => jStrLit s
  | n + 1, .arr items => "[" ++ joinCS (items.map (dumpJsonF n)) ++ "]"
  | n + 1, .obj fields =>
    "\x7b" ++
      joinCS (fields.map (fun kv => jStrLit kv.1 ++ ": " ++ dumpJsonF n kv.2)) ++
    "\x7d"

/-- `json.dumps` for the shallowly nested payloads of these scripts. -/
def dumpJson (j : Json) : String := dumpJsonF 1000 j

/-! ### Quiz JSON Repairer (quiz_generator_agent.py:146-157) and the
quiz `__main__` output block (quiz_generator_agent.py:178-237) -/

/-- The `$` anchor of a Python regex without `re.MULTILINE`: true at the end
of the string and just before a final newline. -/
def endAnchor (l : List Char) (p : Nat) : Bool :=
  p == l.length || (p + 1 == l.length && (l.drop p).head? == some nl)

/-- Length of the match of `r'$$ [\s\S]* $$'` starting at position `p`, if
any: two `$` anchors, a literal space, a greedy `[\s\S]*` (longest first),
a literal space, two `$` anchors. -/
def dollarMatchLen (l : List Char) (p : Nat) : Option Nat :=
  if endAnchor l p && ((l.drop p).head? == some spC) then
    ((List.range (l.length - p + 1)).reverse.find? fun k =>
        ((l.drop (p + 1 + k)).head? == some spC) && endAnchor l (p + 2 + k)).map
      (fun k => k + 2)
  else none

/-- `re.search(r'$$ [\s\S]* $$', s)`: the leftmost start position admitting a
match, with the match length. -/
def dollarSearchSpan (l : List Char) : Option (Nat × Nat) :=
  (List.range (l.length + 1)).findSome? fun p =>
    (dollarMatchLen l p).map (fun len => (p, len))

/-- The parse-and-repair step of `generate_quiz`
(quiz_generator_agent.py:146-157): `loads` models `json.loads` (`none` for a
`JSONDecodeError`). On direct-parse failure the fallback searches with the
pattern `r'$$ [\s\S]* $$'` and, when a match existed, would parse
`json_match.group(0)`; with no match it raises
`ValueError("Failed to extract valid JSON from the response")`. The re-parse
error branch is provably unreachable (see `dollarSearchSpan_eq_none`). -/
def quizParseStep (loads : String → Option Json) (text : String) :
    Except String Json :=
  match loads text with
  | some j => .ok j
  | none =>
    match dollarSearchSpan text.data with
    | some (p, len) =>
      match loads (String.mk ((text.data.drop p).take len)) with
      | some j => .ok j
      | none => .error "JSONDecodeError on the matched span"
    | none => .error "Failed to extract valid JSON from the response"

/-- Input cases of the quiz `__main__` block: a parsed request whose
`generate_quiz` call produced `result`, an invalid JSON line, an unexpected
per-request exception, or a failure reading stdin. -/
inductive QuizMainInput where
  | ok (result : Json)
  | badJson
  | unexpected (msg : String)
  | readFail (msg : String)

/-- The single JSON unit printed by the quiz `__main__` block
(quiz_generator_agent.py:208-237): plain `json.dumps(...)` in every case. -/
def quizMainOut : QuizMainInput → String
  | .ok result => dumpJson result
  | .badJson =>
    dumpJson (.obj
      [("success", .bool false), ("error", .str "Invalid JSON format"),
       ("message", .str "The request format is invalid. Please send a valid JSON object.")])
  | .unexpected m =>
    dumpJson (.obj
      [("success", .bool false), ("error", .str ("Unexpected error: " ++ m)),
       ("message", .str "An unexpected error occurred while processing your request.")])
  | .readFail m =>
    dumpJson (.obj
      [("success", .bool false), ("error", .str ("Error reading input: " ++ m)),
       ("message", .str "Failed to read input data.")])

/-! ### Interview question generator (interview_agent.py:66-138) -/

/-- Outcome of `model.generate_content(prompt)` followed by
`response.text.strip()` and `json.loads`: either the call raised, or it
returned `text` whose parse outcome is `parsed` (`none` for a
`JSONDecodeError`). -/
inductive ReplyOutcome where
  | raises (msg : String)
  | returns (text : String) (parsed : Option Json)

/-- Key membership in a JSON object. -/
def hasKeyJ (fields : List (String × Json)) (k : String) : Bool :=
  fields.any (fun kv => kv.1 == k)

/-- One question item, as the synthetic error items are built. -/
def mkItem (q e sa : String) : Json :=
  .obj [("question", .str q), ("explanation", .str e), ("sample_answer", .str sa)]

/-- The strict shape check of interview_agent.py:94-97: a list of exactly 5
dicts each containing the three required keys. -/
def validQuestions : Json → Bool
  | .arr items =>
    items.length == 5 &&
      items.all fun q =>
        match q with
        | .obj kvs =>
          hasKeyJ kvs "question" && hasKeyJ kvs "explanation" &&
            hasKeyJ kvs "sample_answer"
        | _ => false
  | _ => false

/-- The parsed items of a reply, when it is a JSON array. -/
def replyItems : ReplyOutcome → List Json
  | .returns _ (some (.arr items)) => items
  | _ => []

/-- Whether a reply passes the strict check. -/
def replyValid : ReplyOutcome → Bool
  | .returns _ (some j) => validQuestions j
  | _ => false

/-- Embedding of `get_interview_questions` (interview_agent.py:66-107): the
parsed 5-item list on success, otherwise a single synthetic error item whose
`explanation` carries the offending text or exception message. -/
def get_interview_questions (o : ReplyOutcome) : List Json :=
  match o with
  | .raises m => [mkItem "Error: Failed to generate questions" m ""]
  | .returns text none => [mkItem "Error: Failed to parse response as JSON" text ""]
  | .returns text (some j) =>
    if validQuestions j then
      match j with
      | .arr items => items
      | _ => []
    else [mkItem "Error: Unexpected response format" text ""]

/-- Parse outcome of the stdin API-mode input of interview_agent.py:118-138:
invalid JSON, or the extracted fields. -/
inductive InterviewInput where
  | badJson
  | fields (jobDetails companyInfo questionType : String)

/-- The JSON object printed by the stdin API mode (interview_agent.py:118-138),
before `json.dumps`. -/
def interviewStdin (inp : InterviewInput) (reply : ReplyOutcome) (ts : String) :
    Json :=
  match inp with
  | .badJson => .obj [("error", .str "Invalid JSON input")]
  | .fields jd ci _ =>
    if jd == "" || ci == "" then
      .obj [("error", .str "Job details and company info are required")]
    else
      .obj [("questions", .arr (get_interview_questions reply)),
            ("timestamp", .str ts)]

/-! ### Auxiliary definitions used by theorem statements -/

/-- Concrete instance of RawResponse shape (d): the string `R(output='t')`,
a string form containing the substring `output='t'`. -/
def shapeDStr (t : String) : String :=
  String.mk ('R' :: '(' :: (quotedLit ++ (t.data ++ sq :: [')'])))

/-- Whether an agent call raised. -/
def outcomeRaised : AgentOutcome → Bool
  | .ok _ => false
  | .raises _ => true

/-- The exception message of a raised agent call (empty on success). -/
def outcomeMsg : AgentOutcome → String
  | .ok _ => ""
  | .raises m => m

/-- The response of a successful agent call (a dummy on the raise side; only
read under `outcomeRaised _ = false`). -/
def outcomeResp : AgentOutcome → RawResponse
  | .ok resp => resp
  | .raises _ => .raw ""

/-- A line input that the loop processes to completion: it parses, passes the
empty-input check, and does not hit the voice-failure short circuit. -/
def completedReq (inp : LineInput) : Bool :=
  match inp.parsed with
  | none => false
  | some r =>
    !(r.prompt == "" && !audioTruthy r.audioData) &&
      !(r.isVoiceInput && audioTruthy r.audioData &&
        outcomeRaised inp.transcribeOutcome && r.prompt == "")

/-- Characters whose absence turns every normalization pass except the
newline collapse into the identity: backslash (unescaping), `*` (bold and
bullet), `-` and `•` (bullet). -/
def noSpecialChars (l : List Char) : Bool :=
  l.all fun c => !(c == bsC) && !(c == '*') && !(c == '-') && !(c == bulletC)

/-- Absence of both artifact phrases stripped by basic_agent.py:300-301. -/
def artifactFreeB (l : List Char) : Bool :=
  !hasSubL artifactLit l && !hasSubL dummyLit l

/-! ## Theorems -/

/-! ### Claim C5: the quiz JSON fallback -/

/-- The pattern `r'$$ [\s\S]* $$'` admits no match at any position: the two
leading `$` anchors restrict the position to the end of the string (or just
before a final newline), and the following literal space can never be read
there. -/
theorem dollarMatchLen_eq_none (l : List Char) (p : Nat) :
    dollarMatchLen l p = none := by
  unfold dollarMatchLen
  have h : (endAnchor l p && ((l.drop p).head? == some spC)) = false := by
    cases hd : (l.drop p).head? with
    | none => simp [hd]
    | some c =>
      by_cases hc : c = spC
      · subst hc
        have hne : p ≠ l.length := by
          intro he
          rw [he, List.drop_length] at hd
          simp at hd
        have h1 : (p == l.length) = false := by simp [hne]
        have h2 : ((some spC : Option Char) == some nl) = false := by decide
        simp [endAnchor, h1, hd, h2]
      · simp [hd, hc]
  rw [h]
  rfl

/-- Consequently the whole search fails on every string. -/
theorem dollarSearchSpan_eq_none (l : List Char) : dollarSearchSpan l = none := by
  unfold dollarSearchSpan
  rw [List.findSome?_eq_none_iff]
  intro p _
  rw [dollarMatchLen_eq_none]
  rfl

/-- Claim C5: contrary to the claim, the repair branch of `generate_quiz` can
never recover a JSON array from unparseable text: the fallback pattern
`r'$$ [\s\S]* $$'` (quiz_generator_agent.py:153) matches no string at all, so
whenever the direct parse fails the branch always fails with the
"Failed to extract valid JSON from the response" error, even when the text
contains a balanced JSON array substring. -/
theorem quiz_fallback_always_errors
    (loads : String → Option Json) (text : String) (h : loads text = none) :
    quizParseStep loads text = .error "Failed to extract valid JSON from the response" := by
  unfold quizParseStep
  rw [h, dollarSearchSpan_eq_none]

/-- Witness: on the failing input `"Here is the quiz: [1, 2] Enjoy"` (not
itself valid JSON, but containing the balanced array `[1, 2]`), the branch
errors out instead of parsing the array. -/
theorem quiz_fallback_always_errors_witness :
    quizParseStep (fun _ => none) "Here is the quiz: [1, 2] Enjoy" =
      .error "Failed to extract valid JSON from the response" :=
  quiz_fallback_always_errors (fun _ => none) "Here is the quiz: [1, 2] Enjoy" rfl

/-! ### Claim C1: agreement of the extractor across response shapes -/

/-- A list is always a prefix of itself extended on the right. -/
theorem hasPrefixL_append_self (p l : List Char) :
    hasPrefixL p (p ++ l) = true := by
  induction p with
  | nil => rfl
  | cons c cs ih => simp [hasPrefixL, ih]

/-- The greedy `[^']+` run over `t ++ '\'' :: rest` is exactly `t` when `t`
is quote-free. -/
theorem takeWhile_neq_sq_append (t rest : List Char) (hq : ∀ c ∈ t, c ≠ sq) :
    (t ++ sq :: rest).takeWhile (· != sq) = t := by
  induction t with
  | nil => simp [List.takeWhile]
  | cons c cs ih =>
    have hc : (c != sq) = true := by
      simpa using hq c (List.mem_cons_self c cs)
    rw [List.cons_append,
      @List.takeWhile_cons_of_pos Char (fun x => x != sq) c (cs ++ sq :: rest) hc,
      ih (fun x hx => hq x (List.mem_cons_of_mem c hx))]

/-- Scanning steps over a position where the `output='` literal does not
match. -/
theorem findQuotedOutput_cons_of_not (c : Char) (cs : List Char)
    (h : hasPrefixL quotedLit (c :: cs) = false) :
    findQuotedOutput (c :: cs) = findQuotedOutput cs := by
  rw [findQuotedOutput]
  simp [h]

/-- At a position where `output='` is followed by a non-empty quote-free run
and a closing quote, tier 3 captures exactly that run. -/
theorem findQuotedOutput_hit (t rest : List Char) (ht : t ≠ [])
    (hq : ∀ c ∈ t, c ≠ sq) :
    findQuotedOutput (quotedLit ++ (t ++ sq :: rest)) = some t := by
  have hshape : quotedLit ++ (t ++ sq :: rest) =
      'o' :: ('u' :: 't' :: 'p' :: 'u' :: 't' :: '=' :: sq :: (t ++ sq :: rest)) := rfl
  have hpre : hasPrefixL quotedLit
      ('o' :: ('u' :: 't' :: 'p' :: 'u' :: 't' :: '=' :: sq :: (t ++ sq :: rest))) = true :=
    hasPrefixL_append_self quotedLit (t ++ sq :: rest)
  have hdrop : ('o' :: ('u' :: 't' :: 'p' :: 'u' :: 't' :: '=' :: sq ::
      (t ++ sq :: rest))).drop quotedLit.length = t ++ sq :: rest := rfl
  have hne : t.isEmpty = false := by
    cases t with
    | nil => exact absurd rfl ht
    | cons a as => rfl
  have hdrop2 : (t ++ sq :: rest).drop t.length = sq :: rest :=
    List.drop_left t (sq :: rest)
  rw [hshape, findQuotedOutput]
  simp only [hpre, if_true, hdrop, takeWhile_neq_sq_append t rest hq, hne,
    hdrop2, List.head?_cons, beq_self_eq_true, Bool.ite_eq_true_distrib,
    Bool.false_eq_true, if_false]

/-- Claim C1 counterexample: for the payload `hello`, the mapping shape (c)
does not agree with the attribute shape (a): `hasattr` fails on a dict, no
string tier matches its repr (the repr contains `'output':`, never
`output='`), and the extractor returns the dict repr itself. -/
theorem extractor_shapes_counterexample :
    extract_content (.dict [("output", "hello")]) ≠
      extract_content (.attr "hello" "") := by
  decide

/-- Claim C1 (amended): for every non-empty quote-free payload `t`, shapes
(a) object with `output` attribute, (b) object with nested `data.output`,
and (d) string form containing `output='t'` all extract to the same canonical
string; the mapping shape (c) is excluded (see the counterexample). -/
theorem extractor_shapes_agree (t sh1 sh2 : String) (ht : t ≠ "")
    (hq : ∀ c ∈ t.data, c ≠ sq) :
    extract_content (.attr t sh1) = extract_content (.nested t sh2) ∧
      extract_content (.attr t sh1) = extract_content (.raw (shapeDStr t)) := by
  constructor
  · rfl
  · have htl : t.data ≠ [] := by
      cases t with
      | mk l =>
        intro hnil
        apply ht
        have hl : l = [] := hnil
        rw [hl]
    have hfind : findQuotedOutput ((shapeDStr t).data) = some t.data := by
      show findQuotedOutput
          ('R' :: '(' :: (quotedLit ++ (t.data ++ sq :: [')']))) = some t.data
      rw [findQuotedOutput_cons_of_not 'R'
            ('(' :: (quotedLit ++ (t.data ++ sq :: [')']))) rfl,
        findQuotedOutput_cons_of_not '(' (quotedLit ++ (t.data ++ sq :: [')'])) rfl]
      exact findQuotedOutput_hit t.data [')'] htl hq
    have hst : strTiers (shapeDStr t).data = t.data := by
      unfold strTiers
      rw [hfind]
    show String.mk (unescapeL t.data) =
      String.mk (unescapeL (strTiers (shapeDStr t).data))
    rw [hst]

/-- Witness for `extractor_shapes_agree` at the payload `hello`. -/
theorem extractor_shapes_agree_witness :
    extract_content (.attr "hello" "") = extract_content (.nested "hello" "x") ∧
      extract_content (.attr "hello" "") =
        extract_content (.raw (shapeDStr "hello")) :=
  extractor_shapes_agree "hello" "" "x" (by decide) (by decide)

/-! ### Claim C3: the extractor total-fallback behavior -/

/-- A prefix of a prefix: matching a longer literal implies matching its
initial segment. -/
theorem hasPrefixL_of_append (p q l : List Char)
    (h : hasPrefixL (p ++ q) l = true) : hasPrefixL p l = true := by
  induction p generalizing l with
  | nil => rfl
  | cons a as ih =>
    cases l with
    | nil => exact absurd h (by simp [hasPrefixL])
    | cons c cs =>
      rw [List.cons_append, hasPrefixL] at h
      rcases Bool.and_eq_true_iff.mp h with ⟨h1, h2⟩
      rw [hasPrefixL, h1, ih cs h2]
      rfl

/-- Tier 3 cannot match a string that does not even contain `output=`. -/
theorem findQuotedOutput_eq_none (l : List Char)
    (h : hasSubL eqLit l = false) : findQuotedOutput l = none := by
  induction l with
  | nil => rfl
  | cons c cs ih =>
    rw [hasSubL, Bool.or_eq_false_iff] at h
    have h2 : hasPrefixL quotedLit (c :: cs) = false := by
      cases hq : hasPrefixL quotedLit (c :: cs) with
      | false => rfl
      | true => exact absurd (hasPrefixL_of_append eqLit [sq] _ hq) (by simp [h.1])
    rw [findQuotedOutput]
    simp [h2, ih h.2]

/-- Tier 4 cannot match a string without `output=`. -/
theorem findCommaOutput_eq_none (l : List Char)
    (h : hasSubL eqLit l = false) : findCommaOutput l = none := by
  induction l with
  | nil => rfl
  | cons c cs ih =>
    rw [hasSubL, Bool.or_eq_false_iff] at h
    rw [findCommaOutput]
    simp [h.1, ih h.2]

/-- Tier 5 cannot match a string without `output=`. -/
theorem findOutputEq_eq_none (l : List Char)
    (h : hasSubL eqLit l = false) : findOutputEq l = none := by
  induction l with
  | nil => rfl
  | cons c cs ih =>
    rw [hasSubL, Bool.or_eq_false_iff] at h
    rw [findOutputEq]
    simp [h.1, ih h.2]

/-- Claim C3 counterexample: on an opaque response whose string form contains
a literal backslash-n and no `output=`, no tier matches, yet the extractor
does not return the string form verbatim — it unescapes it first. -/
theorem extract_fallback_counterexample :
    hasSubL eqLit ("ab" ++ bsS ++ "ncd").data = false ∧
      extract_content (.raw ("ab" ++ bsS ++ "ncd")) ≠ ("ab" ++ bsS ++ "ncd") := by
  decide

/-- Claim C3 (amended): `extract_content` is a total function (the embedding
returns a `String` on every `RawResponse`), and whenever the string form
contains no `output=` at all — so tiers 3, 4 and 5 all fail — the result is
the full string form with the literal escape sequences unescaped
(basic_agent.py:132 applies to the fallback as well). -/
theorem extract_fallback_unescapes (s : String)
    (h : hasSubL eqLit s.data = false) :
    extract_content (.raw s) = String.mk (unescapeL s.data) := by
  show String.mk (unescapeL (strTiers s.data)) = String.mk (unescapeL s.data)
  unfold strTiers
  rw [findQuotedOutput_eq_none s.data h, findCommaOutput_eq_none s.data h,
    findOutputEq_eq_none s.data h]

/-- Witness for `extract_fallback_unescapes` at a concrete opaque response. -/
theorem extract_fallback_unescapes_witness :
    extract_content (.raw "plain text") = String.mk (unescapeL "plain text".data) :=
  extract_fallback_unescapes "plain text" (by decide)

/-! ### Claim C2: sentinel framing of response units -/

/-- Appending the sentinel makes the sentinel a suffix. -/
theorem endsWithS_append (a : String) :
    endsWithS (a ++ sentinel) sentinel = true := by
  unfold endsWithS
  rw [String.data_append, List.reverse_append]
  exact hasPrefixL_append_self _ _

/-- Claim C2 counterexample: the quiz generator `__main__` block
(quiz_generator_agent.py:208-228) prints bare `json.dumps(...)` without any
sentinel; here the malformed-line error unit does not end with
`RESPONSE_COMPLETE`. -/
theorem quiz_main_no_sentinel :
    endsWithS (quizMainOut .badJson) sentinel = false := by
  decide

/-- Claim C2 (amended): in the stdin loop of basic_agent.py every response
unit — success payload, lossily re-encoded payload, branch-level error,
voice error, empty-input error or malformed-line error — ends with the
literal sentinel `RESPONSE_COMPLETE`; the quiz generator `__main__` output,
by contrast, carries no sentinel (see the counterexample). -/
theorem step_output_ends_with_sentinel (lossy : String → String)
    (hist : List Turn) (inp : LineInput) :
    endsWithS (stepLoop lossy hist inp).output sentinel = true := by
  unfold stepLoop
  cases hp : inp.parsed with
  | none =>
    simp only [hp]
    exact endsWithS_append _
  | some r =>
    simp only [hp]
    split
    · exact endsWithS_append _
    · split
      · exact endsWithS_append _
      · exact endsWithS_append _

/-- Witness for `step_output_ends_with_sentinel` at a concrete malformed
line. -/
theorem step_output_ends_with_sentinel_witness :
    endsWithS (stepLoop id []
        { parsed := none, parseErr := "bad json", transcribeOutcome := .raises "t"
          generateOutcome := .raises "g", encodeFails := false, ts := "T4" }).output
      sentinel = true :=
  step_output_ends_with_sentinel id []
    { parsed := none, parseErr := "bad json", transcribeOutcome := .raises "t"
      generateOutcome := .raises "g", encodeFails := false, ts := "T4" }

/-! ### Claim C6: exactly one history append per completed request -/

/-- Claim C6: a request the loop processes to completion — whether the
generation call succeeds or raises (the error message then becomes the
content) — appends exactly one `ConversationTurn`, and no request ever
appends more than one. -/
theorem history_append_per_request (lossy : String → String)
    (hist : List Turn) (inp : LineInput) :
    (completedReq inp = true →
      (stepLoop lossy hist inp).history.length = hist.length + 1) ∧
      (stepLoop lossy hist inp).history.length ≤ hist.length + 1 := by
  obtain ⟨parsed, perr, tro, gero, ef, ts⟩ := inp
  constructor
  · intro hc
    cases parsed with
    | none => simp [completedReq] at hc
    | some r =>
      obtain ⟨p, rid, lang, voi, aud⟩ := r
      cases h1 : (p == "" && !audioTruthy aud) with
      | true => simp [completedReq, h1] at hc
      | false =>
        cases tro with
        | ok resp => simp [stepLoop, h1, List.length_append]
        | raises m =>
          cases h2 : (voi && audioTruthy aud) with
          | false => simp [stepLoop, h1, h2, List.length_append]
          | true =>
            cases h3 : (p == "") with
            | true =>
              rw [Bool.and_eq_true] at h2
              simp [completedReq, h1, h2.1, h2.2, h3, outcomeRaised] at hc
            | false =>
              rw [Bool.and_eq_true] at h2
              simp [stepLoop, h1, h2.1, h2.2, h3, List.length_append]
  · cases parsed with
    | none => simp [stepLoop]
    | some r =>
      obtain ⟨p, rid, lang, voi, aud⟩ := r
      cases h1 : (p == "" && !audioTruthy aud) with
      | true => simp [stepLoop, h1]
      | false =>
        cases tro with
        | ok resp => simp [stepLoop, h1, List.length_append]
        | raises m =>
          cases h2 : (voi && audioTruthy aud) with
          | false => simp [stepLoop, h1, h2, List.length_append]
          | true =>
            rw [Bool.and_eq_true] at h2
            cases h3 : (p == "") with
            | true => simp [stepLoop, h1, h2.1, h2.2, h3]
            | false => simp [stepLoop, h1, h2.1, h2.2, h3, List.length_append]

/-- Witness for `history_append_per_request` at a concrete completed request. -/
theorem history_append_per_request_witness :
    (stepLoop id []
        { parsed := some ⟨"hi", "r1", "English", false, none⟩, parseErr := ""
          transcribeOutcome := .raises "t", generateOutcome := .ok (.attr "ok" "")
          encodeFails := false, ts := "T0" }).history.length = 0 + 1 :=
  (history_append_per_request id []
      { parsed := some ⟨"hi", "r1", "English", false, none⟩, parseErr := ""
        transcribeOutcome := .raises "t", generateOutcome := .ok (.attr "ok" "")
        encodeFails := false, ts := "T0" }).1 (by decide)

/-! ### Claim C7: checkpoint on multiples of 3 and unconditional final save -/

/-- Consing onto a list keeps a known last element. -/
theorem getLast?_cons_of_some {α : Type} (a : α) (l : List α) (e : α)
    (h : l.getLast? = some e) : (a :: l).getLast? = some e := by
  cases l with
  | nil => simp at h
  | cons b bs =>
    rw [List.getLast?_cons_cons]
    exact h

/-- A loop run always ends with a final-save event. -/
theorem runLoop_getLast (lossy : String → String) (inps : List LineInput)
    (hist : List Turn) :
    (runLoop lossy hist inps).getLast? =
      some (.finalSave (runHist lossy hist inps)) := by
  induction inps generalizing hist with
  | nil => rfl
  | cons a rest ih =>
    have hcons : (LoopEvent.response (stepLoop lossy hist a).output ::
        runLoop lossy (stepLoop lossy hist a).history rest).getLast? =
        some (.finalSave (runHist lossy (stepLoop lossy hist a).history rest)) :=
      getLast?_cons_of_some _ _ _ (ih (stepLoop lossy hist a).history)
    simp only [runLoop, List.getLast?_append, hcons, Option.or_some]
    rfl

/-- Claim C7: after an append the whole history is checkpointed exactly when
its new length is a multiple of 3 (and a checkpoint happens on no other
path), and every loop run ends with the unconditional final save of the
whole final history. -/
theorem checkpoint_and_final_save (lossy : String → String) (hist : List Turn)
    (inp : LineInput) (inps : List LineInput) :
    ((stepLoop lossy hist inp).savedNow = true ↔
      ((stepLoop lossy hist inp).history.length = hist.length + 1 ∧
        (stepLoop lossy hist inp).history.length % 3 = 0)) ∧
      (runLoop lossy hist inps).getLast? =
        some (.finalSave (runHist lossy hist inps)) := by
  refine ⟨?_, runLoop_getLast lossy inps hist⟩
  obtain ⟨parsed, perr, tro, gero, ef, ts⟩ := inp
  cases parsed with
  | none => simp [stepLoop]
  | some r =>
    obtain ⟨p, rid, lang, voi, aud⟩ := r
    cases h1 : (p == "" && !audioTruthy aud) with
    | true => simp [stepLoop, h1]
    | false =>
      cases tro with
      | ok resp =>
        simp [stepLoop, h1, List.length_append, Nat.beq_eq_true_eq]
      | raises m =>
        cases h2 : (voi && audioTruthy aud) with
        | false => simp [stepLoop, h1, h2, List.length_append, Nat.beq_eq_true_eq]
        | true =>
          rw [Bool.and_eq_true] at h2
          cases h3 : (p == "") with
          | true => simp [stepLoop, h1, h2.1, h2.2, h3]
          | false =>
            simp [stepLoop, h1, h2.1, h2.2, h3, List.length_append,
              Nat.beq_eq_true_eq]

/-- Witness for `checkpoint_and_final_save` at a concrete request and run. -/
theorem checkpoint_and_final_save_witness :
    ((stepLoop id []
        { parsed := some ⟨"q", "r4", "English", false, none⟩, parseErr := ""
          transcribeOutcome := .raises "t", generateOutcome := .ok (.attr "a" "")
          encodeFails := false, ts := "T5" }).savedNow = true ↔
      ((stepLoop id []
        { parsed := some ⟨"q", "r4", "English", false, none⟩, parseErr := ""
          transcribeOutcome := .raises "t", generateOutcome := .ok (.attr "a" "")
          encodeFails := false, ts := "T5" }).history.length =
          (List.length ([] : List Turn)) + 1 ∧
        (stepLoop id []
        { parsed := some ⟨"q", "r4", "English", false, none⟩, parseErr := ""
          transcribeOutcome := .raises "t", generateOutcome := .ok (.attr "a" "")
          encodeFails := false, ts := "T5" }).history.length % 3 = 0)) ∧
      (runLoop id [] []).getLast? = some (.finalSave (runHist id [] [])) :=
  checkpoint_and_final_save id []
    { parsed := some ⟨"q", "r4", "English", false, none⟩, parseErr := ""
      transcribeOutcome := .raises "t", generateOutcome := .ok (.attr "a" "")
      encodeFails := false, ts := "T5" } []

/-! ### Claim C8: voice-input transcription handling -/

/-- Claim C8: with `isVoiceInput` true and non-empty `audioData`, the
transcription sub-step runs first; on success the recovered text replaces the
prompt behind the fixed marker (keeping the original prompt when the
recovered text is empty); if transcription raises and a prompt was supplied,
processing continues with the original prompt; if transcription raises and
no prompt exists, the voice error unit is written and the generation branch
is never invoked. -/
theorem voice_input_handling (lossy : String → String) (hist : List Turn)
    (inp : LineInput) (r : Request) (hp : inp.parsed = some r)
    (hv : r.isVoiceInput = true) (ha : audioTruthy r.audioData = true) :
    (outcomeRaised inp.transcribeOutcome = false →
      (stepLoop lossy hist inp).transQuery = some (r.audioData.getD "") ∧
        (stepLoop lossy hist inp).promptUsed =
          voiceMarker ++
            (if extract_content (outcomeResp inp.transcribeOutcome) == ""
             then r.prompt
             else extract_content (outcomeResp inp.transcribeOutcome))) ∧
      (outcomeRaised inp.transcribeOutcome = true → r.prompt ≠ "" →
        (stepLoop lossy hist inp).promptUsed = r.prompt ∧
          (stepLoop lossy hist inp).genQuery.isSome = true) ∧
      (outcomeRaised inp.transcribeOutcome = true → r.prompt = "" →
        (stepLoop lossy hist inp).output =
          "Error processing voice input: " ++ outcomeMsg inp.transcribeOutcome ++
            sentinel ∧
          (stepLoop lossy hist inp).genQuery = none ∧
          (stepLoop lossy hist inp).history = hist) := by
  obtain ⟨parsed, perr, tro, gero, ef, ts⟩ := inp
  have hp' : parsed = some r := hp
  subst hp'
  obtain ⟨p, rid, lang, voi, aud⟩ := r
  have hv' : voi = true := hv
  subst hv'
  have ha' : audioTruthy aud = true := ha
  cases tro with
  | ok resp =>
    refine ⟨fun _ => ?_, fun hr => by simp [outcomeRaised] at hr,
      fun hr => by simp [outcomeRaised] at hr⟩
    constructor
    · simp [stepLoop, ha']
    · simp [stepLoop, ha', outcomeResp]
  | raises m =>
    refine ⟨fun hr => by simp [outcomeRaised] at hr, fun _ hpne => ?_,
      fun _ hpe => ?_⟩
    · have hpne' : p ≠ "" := hpne
      have hbe : (p == "") = false := by
        simp [hpne']
      constructor
      · simp [stepLoop, ha', hbe]
      · simp [stepLoop, ha', hbe]
    · have hpe' : p = "" := hpe
      have hbe : (p == "") = true := by
        simp [hpe']
      refine ⟨?_, ?_, ?_⟩
      · simp [stepLoop, ha', hbe, outcomeMsg]
      · simp [stepLoop, ha', hbe]
      · simp [stepLoop, ha', hbe]

/-- Witness for `voice_input_handling`: a concrete voice request whose
transcription raises while no prompt exists writes the voice error and skips
generation. -/
theorem voice_input_handling_witness :
    (stepLoop id []
        { parsed := some ⟨"", "r2", "English", true, some "AUDIO"⟩, parseErr := ""
          transcribeOutcome := .raises "boom"
          generateOutcome := .ok (.attr "x" ""), encodeFails := false
          ts := "T1" }).output =
      "Error processing voice input: " ++ outcomeMsg (.raises "boom") ++ sentinel ∧
      (stepLoop id []
        { parsed := some ⟨"", "r2", "English", true, some "AUDIO"⟩, parseErr := ""
          transcribeOutcome := .raises "boom"
          generateOutcome := .ok (.attr "x" ""), encodeFails := false
          ts := "T1" }).genQuery = none ∧
      (stepLoop id []
        { parsed := some ⟨"", "r2", "English", true, some "AUDIO"⟩, parseErr := ""
          transcribeOutcome := .raises "boom"
          generateOutcome := .ok (.attr "x" ""), encodeFails := false
          ts := "T1" }).history = [] :=
  (voice_input_handling id []
      { parsed := some ⟨"", "r2", "English", true, some "AUDIO"⟩, parseErr := ""
        transcribeOutcome := .raises "boom"
        generateOutcome := .ok (.attr "x" ""), encodeFails := false
        ts := "T1" }
      ⟨"", "r2", "English", true, some "AUDIO"⟩ rfl rfl (by decide)).2.2 rfl rfl

/-! ### Claim C10: empty prompt with audio but without the voice flag -/

/-- Claim C10: a request with empty prompt, non-empty `audioData` and
`isVoiceInput` false passes the empty-input check (no empty-input error is
written), runs no transcription, selects the text branch (the keyword scan
over the empty prompt matches nothing), and invokes the generation call with
the text template built around the empty prompt; a turn is still appended. -/
theorem empty_prompt_with_audio (lossy : String → String) (hist : List Turn)
    (inp : LineInput) (r : Request) (a : String) (hp : inp.parsed = some r)
    (hpr : r.prompt = "") (hv : r.isVoiceInput = false)
    (hau : r.audioData = some a) (hane : a ≠ "") :
    (stepLoop lossy hist inp).tag = .text ∧
      (stepLoop lossy hist inp).transQuery = none ∧
      (stepLoop lossy hist inp).genQuery =
        some (textTemplate r.prompt r.language) ∧
      (stepLoop lossy hist inp).history.length = hist.length + 1 := by
  obtain ⟨parsed, perr, tro, gero, ef, ts⟩ := inp
  have hp' : parsed = some r := hp
  subst hp'
  obtain ⟨p, rid, lang, voi, aud⟩ := r
  have hv' : voi = false := hv
  subst hv'
  have hpr' : p = "" := hpr
  subst hpr'
  have hau' : aud = some a := hau
  subst hau'
  have ha : audioTruthy (some a) = true := by
    simp [audioTruthy, hane]
  have himg : isImageRequest "" = false := by decide
  cases tro with
  | ok resp =>
    refine ⟨?_, ?_, ?_, ?_⟩ <;>
      simp [stepLoop, ha, himg, List.length_append]
  | raises m =>
    refine ⟨?_, ?_, ?_, ?_⟩ <;>
      simp [stepLoop, ha, himg, List.length_append]

/-- Witness for `empty_prompt_with_audio` at a concrete request. -/
theorem empty_prompt_with_audio_witness :
    (stepLoop id []
        { parsed := some ⟨"", "r3", "Hindi", false, some "AUDIO"⟩, parseErr := ""
          transcribeOutcome := .raises "t", generateOutcome := .ok (.attr "y" "")
          encodeFails := false, ts := "T2" }).tag = BranchTag.text ∧
      (stepLoop id []
        { parsed := some ⟨"", "r3", "Hindi", false, some "AUDIO"⟩, parseErr := ""
          transcribeOutcome := .raises "t", generateOutcome := .ok (.attr "y" "")
          encodeFails := false, ts := "T2" }).transQuery = none ∧
      (stepLoop id []
        { parsed := some ⟨"", "r3", "Hindi", false, some "AUDIO"⟩, parseErr := ""
          transcribeOutcome := .raises "t", generateOutcome := .ok (.attr "y" "")
          encodeFails := false, ts := "T2" }).genQuery =
        some (textTemplate "" "Hindi") ∧
      (stepLoop id []
        { parsed := some ⟨"", "r3", "Hindi", false, some "AUDIO"⟩, parseErr := ""
          transcribeOutcome := .raises "t", generateOutcome := .ok (.attr "y" "")
          encodeFails := false, ts := "T2" }).history.length = 0 + 1 :=
  empty_prompt_with_audio id []
    { parsed := some ⟨"", "r3", "Hindi", false, some "AUDIO"⟩, parseErr := ""
      transcribeOutcome := .raises "t", generateOutcome := .ok (.attr "y" "")
      encodeFails := false, ts := "T2" }
    ⟨"", "r3", "Hindi", false, some "AUDIO"⟩ "AUDIO" rfl rfl rfl rfl (by decide)

/-! ### Claim C9: strict interview-question schema and envelope shape -/

/-- Claim C9: the interview generator accepts only a JSON list of exactly 5
items carrying the keys `question`, `explanation` and `sample_answer`; every
deviation (raised call, unparseable JSON, wrong arity or missing key) yields
a single synthetic error item instead of an exception, and for a well-formed
stdin request (non-empty job details and company info) the response envelope
is always `{questions: [...], timestamp}`. -/
theorem interview_strict_schema (o : ReplyOutcome) (ts jd ci qt : String)
    (hjd : jd ≠ "") (hci : ci ≠ "") :
    (replyValid o = false → (get_interview_questions o).length = 1) ∧
      (replyValid o = true → get_interview_questions o = replyItems o) ∧
      interviewStdin (.fields jd ci qt) o ts =
        .obj [("questions", .arr (get_interview_questions o)),
          ("timestamp", .str ts)] := by
  refine ⟨?_, ?_, ?_⟩
  · intro hinv
    cases o with
    | raises m => rfl
    | returns text parsed =>
      cases parsed with
      | none => rfl
      | some j =>
        have hj : validQuestions j = false := hinv
        simp [get_interview_questions, hj]
  · intro hval
    cases o with
    | raises m => simp [replyValid] at hval
    | returns text parsed =>
      cases parsed with
      | none => simp [replyValid] at hval
      | some j =>
        have hj : validQuestions j = true := hval
        cases j with
        | arr items => simp [get_interview_questions, replyItems, hj]
        | null => simp [validQuestions] at hj
        | bool b => simp [validQuestions] at hj
        | num n => simp [validQuestions] at hj
        | str s => simp [validQuestions] at hj
        | obj kvs => simp [validQuestions] at hj
  · have h1 : (jd == "") = false := by simp [hjd]
    have h2 : (ci == "") = false := by simp [hci]
    simp [interviewStdin, h1, h2]

/-- Witness for `interview_strict_schema`: an unparseable model reply yields
one synthetic item, and the envelope keeps the `questions`/`timestamp`
shape. -/
theorem interview_strict_schema_witness :
    (get_interview_questions (.returns "oops" none)).length = 1 ∧
      interviewStdin (.fields "dev" "acme" "general") (.returns "oops" none) "T3" =
        .obj [("questions", .arr (get_interview_questions (.returns "oops" none))),
          ("timestamp", .str "T3")] :=
  ⟨(interview_strict_schema (.returns "oops" none) "T3" "dev" "acme" "general"
      (by decide) (by decide)).1 rfl,
    (interview_strict_schema (.returns "oops" none) "T3" "dev" "acme" "general"
      (by decide) (by decide)).2.2⟩

/-! ### Claim C4: idempotence of the text normalization -/

/-- Claim C4 counterexample: the normalization sequence is not idempotent.
Stripping the artifact match `Processing request...est...` out of
`Processing requProcessing request...est...` splices together a fresh
artifact occurrence, which only a second application removes. -/
theorem normalize_not_idempotent :
    normalizeText (normalizeText "Processing requProcessing request...est...") ≠
      normalizeText "Processing requProcessing request...est..." := by
  decide

/-- Two-character replacement is the identity when the first pattern
character never occurs. -/
theorem replace2_id (a b r : Char) (l : List Char) (h : ∀ c ∈ l, c ≠ a) :
    replace2 a b r l = l := by
  induction l with
  | nil => rfl
  | cons c cs ih =>
    cases cs with
    | nil => rfl
    | cons d ds =>
      have hc : (c == a) = false := by
        simp [h c (List.mem_cons_self c _)]
      rw [replace2, hc]
      simp only [Bool.false_and, Bool.false_eq_true, if_false]
      rw [ih (fun x hx => h x (List.mem_cons_of_mem c hx))]

/-- Lazy-pattern removal is the identity when the literal never occurs. -/
theorem removeLazyF_id (lit stop : List Char) (n : Nat) (l : List Char)
    (h : hasSubL lit l = false) : removeLazyF lit stop n l = l := by
  induction n generalizing l with
  | zero => rfl
  | succ n ih =>
    cases l with
    | nil => rfl
    | cons c cs =>
      rw [hasSubL, Bool.or_eq_false_iff] at h
      rw [removeLazyF, h.1]
      simp only [Bool.false_eq_true, if_false]
      rw [ih cs h.2]

/-- Bullet unification is the identity when no marker character occurs. -/
theorem bulletSubF_id (n : Nat) (b : Bool) (l : List Char)
    (h : ∀ c ∈ l, isMarker c = false) : bulletSubF n b l = l := by
  induction n generalizing b l with
  | zero => rfl
  | succ n ih =>
    cases l with
    | nil => rfl
    | cons c cs =>
      rw [bulletSubF, h c (List.mem_cons_self c _)]
      simp only [Bool.and_false, Bool.false_and, Bool.false_eq_true, if_false]
      rw [ih (c == nl) cs (fun x hx => h x (List.mem_cons_of_mem c hx))]

/-- Bold rewriting is the identity when no asterisk occurs. -/
theorem boldSubF_id (n : Nat) (l : List Char) (h : ∀ c ∈ l, c ≠ '*') :
    boldSubF n l = l := by
  induction n generalizing l with
  | zero => rfl
  | succ n ih =>
    cases l with
    | nil => rfl
    | cons c cs =>
      have hc : hasPrefixL star2 (c :: cs) = false := by
        have hne := h c (List.mem_cons_self c _)
        have hb : ('*' == c) = false := by
          simp only [beq_eq_false_iff_ne]
          exact Ne.symm hne
        rw [show star2 = '*' :: ['*'] from rfl, hasPrefixL, hb]
        rfl
      rw [boldSubF, hc]
      simp only [Bool.false_eq_true, if_false]
      rw [ih cs (fun x hx => h x (List.mem_cons_of_mem c hx))]

/-- Substring freeness passes to the suffix cut by `dropWhile`. -/
theorem hasSubL_dropWhile (pat : List Char) (q : Char → Bool) (l : List Char)
    (h : hasSubL pat l = false) : hasSubL pat (l.dropWhile q) = false := by
  induction l with
  | nil => exact h
  | cons c cs ih =>
    rw [List.dropWhile_cons]
    split
    · apply ih
      rw [hasSubL, Bool.or_eq_false_iff] at h
      exact h.2
    · exact h

/-- A nonempty pattern avoiding newline never matches at a newline. -/
theorem hasPrefixL_not_nl_head (pat X : List Char) (hn : nl ∉ pat)
    (hpne : pat ≠ []) : hasPrefixL pat (nl :: X) = false := by
  cases pat with
  | nil => exact absurd rfl hpne
  | cons p ps =>
    have hp : (p == nl) = false := by
      simp only [beq_eq_false_iff_ne]
      intro he
      exact hn (he ▸ List.mem_cons_self p ps)
    rw [hasPrefixL, hp]
    rfl

/-- Prepending a newline run cannot create an occurrence of a newline-free
pattern. -/
theorem hasSubL_replicate_nl (pat : List Char) (hn : nl ∉ pat) (hpne : pat ≠ [])
    (j : Nat) (X : List Char) :
    hasSubL pat (List.replicate j nl ++ X) = hasSubL pat X := by
  induction j with
  | zero => rfl
  | succ j ih =>
    rw [List.replicate_succ, List.cons_append, hasSubL,
      hasPrefixL_not_nl_head pat _ hn hpne, Bool.false_or]
    exact ih

/-- A newline-free pattern matching at the head of a collapsed list matched
at the head of the original list. -/
theorem hasPrefixL_collapseF (n : Nat) (pat l : List Char) (hn : nl ∉ pat)
    (h : hasPrefixL pat (collapseF n l) = true) : hasPrefixL pat l = true := by
  induction n generalizing pat l with
  | zero => exact h
  | succ n ih =>
    cases pat with
    | nil => rfl
    | cons p ps =>
      cases l with
      | nil => exact h
      | cons d ds =>
        rw [collapseF] at h
        by_cases hd : (d == nl) = true
        · rw [if_pos hd] at h
          exfalso
          have hp : (p == nl) = false := by
            simp only [beq_eq_false_iff_ne]
            intro he
            exact hn (he ▸ List.mem_cons_self p ps)
          split at h
          · rw [show ([nl, nl] : List Char) ++
                collapseF n (ds.dropWhile (· == nl)) =
                nl :: ([nl] ++ collapseF n (ds.dropWhile (· == nl))) from rfl,
              hasPrefixL, hp, Bool.false_and] at h
            exact Bool.false_ne_true h
          · rw [Nat.add_comm, List.replicate_succ, List.cons_append,
              hasPrefixL, hp, Bool.false_and] at h
            exact Bool.false_ne_true h
        · rw [if_neg hd] at h
          rw [hasPrefixL, Bool.and_eq_true] at h
          have hps : hasPrefixL ps ds = true :=
            ih ps ds (fun hm => hn (List.mem_cons_of_mem p hm)) h.2
          rw [hasPrefixL, h.1, hps]
          rfl

/-- Collapsing newline runs cannot create an occurrence of a newline-free
pattern. -/
theorem hasSubL_collapseF (n : Nat) (pat l : List Char) (hn : nl ∉ pat)
    (hpne : pat ≠ []) (h : hasSubL pat l = false) :
    hasSubL pat (collapseF n l) = false := by
  induction n generalizing l with
  | zero => exact h
  | succ n ih =>
    cases l with
    | nil => exact h
    | cons d ds =>
      have hh := h
      rw [hasSubL, Bool.or_eq_false_iff] at hh
      rw [collapseF]
      by_cases hd : (d == nl) = true
      · rw [if_pos hd]
        have hcoll := ih (ds.dropWhile (· == nl))
          (hasSubL_dropWhile pat _ ds hh.2)
        split
        · rw [show ([nl, nl] : List Char) = List.replicate 2 nl from rfl,
            hasSubL_replicate_nl pat hn hpne 2 _]
          exact hcoll
        · rw [hasSubL_replicate_nl pat hn hpne _ _]
          exact hcoll
      · rw [if_neg hd]
        rw [hasSubL, Bool.or_eq_false_iff]
        refine ⟨?_, ih ds hh.2⟩
        cases hpp : hasPrefixL pat (d :: collapseF n ds) with
        | false => rfl
        | true =>
          exfalso
          cases pat with
          | nil => exact hpne rfl
          | cons p ps =>
            rw [hasPrefixL, Bool.and_eq_true] at hpp
            have hps : hasPrefixL ps ds = true :=
              hasPrefixL_collapseF n ps ds
                (fun hm => hn (List.mem_cons_of_mem p hm)) hpp.2
            have hfull : hasPrefixL (p :: ps) (d :: ds) = true := by
              rw [hasPrefixL, hpp.1, hps]
              rfl
            rw [hh.1] at hfull
            exact Bool.false_ne_true hfull

/-- Collapsing keeps the head when the head is not a newline. -/
theorem collapseF_head (n : Nat) (l : List Char) (h : l.head? ≠ some nl) :
    (collapseF n l).head? = l.head? := by
  cases n with
  | zero => rfl
  | succ n =>
    cases l with
    | nil => rfl
    | cons d ds =>
      have hd : (d == nl) = false := by
        cases hb : (d == nl) with
        | false => rfl
        | true =>
          exfalso
          apply h
          rw [List.head?_cons, beq_iff_eq.mp hb]
      rw [collapseF, if_neg (by simp [hd])]
      rw [List.head?_cons, List.head?_cons]

/-- The two-newline patterns fail on a list not starting with a newline. -/
theorem hasPrefixL_nl_runs_false (X : List Char) (h : X.head? ≠ some nl) :
    hasPrefixL [nl] X = false ∧ hasPrefixL [nl, nl] X = false := by
  cases X with
  | nil => exact ⟨rfl, rfl⟩
  | cons x xs =>
    have hx : (nl == x) = false := by
      simp only [beq_eq_false_iff_ne]
      intro he
      apply h
      rw [List.head?_cons, ← he]
    constructor
    · rw [hasPrefixL, hx]
      rfl
    · rw [hasPrefixL, hx]
      rfl

/-- A short newline chunk in front of a triple-free block not starting with a
newline stays triple-free. -/
theorem hasSubL_nl3_chunk (j : Nat) (hj : j ≤ 2) (X : List Char)
    (hX : hasSubL [nl, nl, nl] X = false) (hhd : X.head? ≠ some nl) :
    hasSubL [nl, nl, nl] (List.replicate j nl ++ X) = false := by
  obtain ⟨hp1, hp2⟩ := hasPrefixL_nl_runs_false X hhd
  have h1 : hasSubL [nl, nl, nl] (nl :: X) = false := by
    rw [hasSubL]
    have : hasPrefixL [nl, nl, nl] (nl :: X) = false := by
      rw [show ([nl, nl, nl] : List Char) = nl :: [nl, nl] from rfl,
        hasPrefixL]
      simp [hp2]
    rw [this, hX]
    rfl
  interval_cases j
  · exact hX
  · exact h1
  · rw [show List.replicate 2 nl ++ X = nl :: (nl :: X) from rfl, hasSubL]
    have : hasPrefixL [nl, nl, nl] (nl :: nl :: X) = false := by
      rw [show ([nl, nl, nl] : List Char) = nl :: nl :: [nl] from rfl,
        hasPrefixL, hasPrefixL]
      simp [hp1]
    rw [this, h1]
    rfl

/-- After collapsing, no run of three newlines remains. -/
theorem collapseF_no_triple (n : Nat) (l : List Char) (hlen : l.length ≤ n) :
    hasSubL [nl, nl, nl] (collapseF n l) = false := by
  induction n generalizing l with
  | zero =>
    have hnil : l = [] := List.eq_nil_of_length_eq_zero (Nat.le_zero.mp hlen)
    rw [hnil]
    rfl
  | succ n ih =>
    cases l with
    | nil => rfl
    | cons d ds =>
      rw [collapseF]
      have hds : ds.length ≤ n := Nat.le_of_succ_le_succ hlen
      by_cases hd : (d == nl) = true
      · rw [if_pos hd]
        have hrlen : (ds.dropWhile (· == nl)).length ≤ n :=
          le_trans (List.Sublist.length_le (List.dropWhile_sublist _)) hds
        have hcoll := ih (ds.dropWhile (· == nl)) hrlen
        have hrhd : (ds.dropWhile (· == nl)).head? ≠ some nl := by
          have hmatch := List.head?_dropWhile_not (· == nl) ds
          cases hh : (ds.dropWhile (· == nl)).head? with
          | none => simp
          | some x =>
            rw [hh] at hmatch
            intro he
            have hx : x = nl := Option.some.inj he
            rw [hx] at hmatch
            simp at hmatch
        have hchd : (collapseF n (ds.dropWhile (· == nl))).head? ≠ some nl := by
          rw [collapseF_head n _ hrhd]
          exact hrhd
        split
        · exact hasSubL_nl3_chunk 2 (by omega) _ hcoll hchd
        · next hrun =>
          exact hasSubL_nl3_chunk _ (by omega) _ hcoll hchd
      · rw [if_neg hd]
        rw [hasSubL, Bool.or_eq_false_iff]
        refine ⟨?_, ih ds hds⟩
        rw [show ([nl, nl, nl] : List Char) = nl :: [nl, nl] from rfl,
          hasPrefixL]
        have hx : (nl == d) = false := by
          simp only [beq_eq_false_iff_ne]
          intro he
          rw [← he] at hd
          simp at hd
        rw [hx]
        rfl

/-- A run of at least three newlines starts with two newlines after the
head. -/
theorem takeWhile_two_newlines (m : List Char)
    (hm : 2 ≤ (m.takeWhile (· == nl)).length) :
    hasPrefixL [nl, nl] m = true := by
  cases m with
  | nil => simp [List.takeWhile] at hm
  | cons e es =>
    rw [List.takeWhile_cons] at hm
    by_cases he : (e == nl) = true
    · rw [if_pos he] at hm
      cases es with
      | nil => simp [List.takeWhile] at hm
      | cons f fs =>
        rw [List.takeWhile_cons] at hm
        by_cases hf : (f == nl) = true
        · have he' : (nl == e) = true := by
            rw [beq_iff_eq] at he ⊢
            exact he.symm
          have hf' : (nl == f) = true := by
            rw [beq_iff_eq] at hf ⊢
            exact hf.symm
          rw [hasPrefixL, he', hasPrefixL, hf']
          rfl
        · rw [if_neg hf] at hm
          simp at hm
    · rw [if_neg he] at hm
      simp at hm

/-- Collapse is the identity on triple-free lists. -/
theorem collapseF_id_of_no_triple (n : Nat) (l : List Char)
    (hlen : l.length ≤ n) (h : hasSubL [nl, nl, nl] l = false) :
    collapseF n l = l := by
  induction n generalizing l with
  | zero =>
    have hnil : l = [] := List.eq_nil_of_length_eq_zero (Nat.le_zero.mp hlen)
    rw [hnil]
    rfl
  | succ n ih =>
    cases l with
    | nil => rfl
    | cons d ds =>
      have hh := h
      rw [hasSubL, Bool.or_eq_false_iff] at hh
      have hds : ds.length ≤ n := Nat.le_of_succ_le_succ hlen
      rw [collapseF]
      by_cases hd : (d == nl) = true
      · rw [if_pos hd]
        have hdnl : d = nl := beq_iff_eq.mp hd
        have hrun : ¬ 3 ≤ 1 + (ds.takeWhile (· == nl)).length := by
          intro hge
          have h2 : 2 ≤ (ds.takeWhile (· == nl)).length := by omega
          have hp2 := takeWhile_two_newlines ds h2
          have hfull : hasPrefixL [nl, nl, nl] (d :: ds) = true := by
            rw [show ([nl, nl, nl] : List Char) = nl :: [nl, nl] from rfl,
              hasPrefixL, hp2, hdnl]
            simp
          rw [hh.1] at hfull
          exact Bool.false_ne_true hfull
        rw [if_neg hrun]
        have htake : ds.takeWhile (· == nl) =
            List.replicate (ds.takeWhile (· == nl)).length nl := by
          apply List.eq_replicate_of_mem
          intro b hb
          have hpb := List.mem_takeWhile_imp hb
          exact beq_iff_eq.mp hpb
        have hrest : hasSubL [nl, nl, nl] (ds.dropWhile (· == nl)) = false :=
          hasSubL_dropWhile _ _ _ hh.2
        have hrlen : (ds.dropWhile (· == nl)).length ≤ n :=
          le_trans (List.Sublist.length_le (List.dropWhile_sublist _)) hds
        rw [ih _ hrlen hrest, Nat.add_comm, List.replicate_succ,
          List.cons_append, ← htake, List.takeWhile_append_dropWhile, hdnl]
      · rw [if_neg hd, ih ds hds hh.2]

/-- Every character of a collapsed list is a character of the original or a
newline. -/
theorem mem_collapseF (n : Nat) (l : List Char) (c : Char)
    (h : c ∈ collapseF n l) : c ∈ l ∨ c = nl := by
  induction n generalizing l with
  | zero => exact Or.inl h
  | succ n ih =>
    cases l with
    | nil => exact Or.inl h
    | cons d ds =>
      rw [collapseF] at h
      by_cases hd : (d == nl) = true
      · rw [if_pos hd] at h
        have hdist : c ∈ collapseF n (ds.dropWhile (· == nl)) ∨ c = nl := by
          split at h
          · rcases List.mem_append.mp h with hc | hc
            · right
              have hc' : c ∈ List.replicate 2 nl := hc
              exact List.eq_of_mem_replicate hc'
            · exact Or.inl hc
          · rcases List.mem_append.mp h with hc | hc
            · right
              exact List.eq_of_mem_replicate hc
            · exact Or.inl hc
        rcases hdist with hc | hc
        · rcases ih _ hc with hm | hm
          · exact Or.inl (List.mem_cons_of_mem d
              (List.Sublist.mem hm (List.dropWhile_sublist _)))
          · exact Or.inr hm
        · exact Or.inr hc
      · rw [if_neg hd] at h
        rcases List.mem_cons.mp h with hc | hc
        · exact Or.inl (hc ▸ List.mem_cons_self d ds)
        · rcases ih ds hc with hm | hm
          · exact Or.inl (List.mem_cons_of_mem d hm)
          · exact Or.inr hm

/-- Claim C4 (amended): the normalization sequence of basic_agent.py:297-310
is not idempotent in general (see the counterexample: artifact stripping can
splice together a fresh artifact). It is idempotent on every string free of
the characters that drive the rewriting substitutions — backslash, `*`, `-`
and `•` — and of the two artifact phrases; on such strings normalization
reduces to newline collapsing, which is idempotent. -/
theorem normalize_idempotent_on_plain (s : String)
    (h1 : noSpecialChars s.data = true) (h2 : artifactFreeB s.data = true) :
    normalizeText (normalizeText s) = normalizeText s := by
  rw [noSpecialChars, List.all_eq_true] at h1
  rw [artifactFreeB, Bool.and_eq_true] at h2
  obtain ⟨h2a, h2b⟩ := h2
  rw [Bool.not_eq_true'] at h2a h2b
  have hfacts : ∀ c ∈ s.data, (c == bsC) = false ∧ (c == '*') = false ∧
      (c == '-') = false ∧ (c == bulletC) = false := by
    intro c hc
    have hh := h1 c hc
    simp only [Bool.and_eq_true, Bool.not_eq_true'] at hh
    exact ⟨hh.1.1.1, hh.1.1.2, hh.1.2, hh.2⟩
  have hbs : ∀ c ∈ s.data, c ≠ bsC :=
    fun c hc => beq_eq_false_iff_ne.mp (hfacts c hc).1
  have hst : ∀ c ∈ s.data, c ≠ '*' :=
    fun c hc => beq_eq_false_iff_ne.mp (hfacts c hc).2.1
  have hmk : ∀ c ∈ s.data, isMarker c = false := by
    intro c hc
    rw [isMarker, (hfacts c hc).2.1, (hfacts c hc).2.2.1, (hfacts c hc).2.2.2]
    rfl
  have e1 : unescapeL s.data = s.data := by
    rw [unescapeL, replace2_id bsC 'n' nl s.data hbs,
      replace2_id bsC 't' tabC s.data hbs]
  have hpass1 : normalizeText s = String.mk (collapseF s.data.length s.data) := by
    simp only [normalizeText]
    rw [e1, removeLazyF_id artifactLit dots3 _ _ h2a,
      removeLazyF_id dummyLit dot1 _ _ h2b, bulletSubF_id _ true _ hmk,
      boldSubF_id _ _ hst]
  have hy_chars : ∀ c ∈ collapseF s.data.length s.data, c ∈ s.data ∨ c = nl :=
    fun c hc => mem_collapseF _ _ c hc
  have hy_bs : ∀ c ∈ collapseF s.data.length s.data, c ≠ bsC := by
    intro c hc
    rcases hy_chars c hc with hm | hm
    · exact hbs c hm
    · rw [hm]
      decide
  have hy_st : ∀ c ∈ collapseF s.data.length s.data, c ≠ '*' := by
    intro c hc
    rcases hy_chars c hc with hm | hm
    · exact hst c hm
    · rw [hm]
      decide
  have hy_mk : ∀ c ∈ collapseF s.data.length s.data, isMarker c = false := by
    intro c hc
    rcases hy_chars c hc with hm | hm
    · exact hmk c hm
    · rw [hm]
      decide
  have hyArt : hasSubL artifactLit (collapseF s.data.length s.data) = false :=
    hasSubL_collapseF _ _ _ (by decide) (by decide) h2a
  have hyDum : hasSubL dummyLit (collapseF s.data.length s.data) = false :=
    hasSubL_collapseF _ _ _ (by decide) (by decide) h2b
  have hyTriple : hasSubL [nl, nl, nl] (collapseF s.data.length s.data) = false :=
    collapseF_no_triple _ _ (le_refl _)
  have hyCol : collapseF (collapseF s.data.length s.data).length
      (collapseF s.data.length s.data) = collapseF s.data.length s.data :=
    collapseF_id_of_no_triple _ _ (le_refl _) hyTriple
  have hdata : (String.mk (collapseF s.data.length s.data)).data =
      collapseF s.data.length s.data := rfl
  have hpass2 : normalizeText (String.mk (collapseF s.data.length s.data)) =
      String.mk (collapseF s.data.length s.data) := by
    simp only [normalizeText, hdata]
    rw [unescapeL, replace2_id bsC 'n' nl _ hy_bs, replace2_id bsC 't' tabC _ hy_bs,
      removeLazyF_id artifactLit dots3 _ _ hyArt,
      removeLazyF_id dummyLit dot1 _ _ hyDum, bulletSubF_id _ true _ hy_mk,
      boldSubF_id _ _ hy_st, hyCol]
  rw [hpass1, hpass2]

/-- Witness for `normalize_idempotent_on_plain` at a concrete string with a
long newline run. -/
theorem normalize_idempotent_on_plain_witness :
    noSpecialChars ("hello\n\n\n\nworld").data = true ∧
      artifactFreeB ("hello\n\n\n\nworld").data = true ∧
      normalizeText (normalizeText "hello\n\n\n\nworld") =
        normalizeText "hello\n\n\n\nworld" :=
  ⟨by decide, by decide,
    normalize_idempotent_on_plain "hello\n\n\n\nworld" (by decide) (by decide)⟩

end AgentRepo
